import Mathlib

/-!
Verification of the printer lifecycle and job-submission subsystem of the
sticker-dream repository (`src/print.ts` as re-exported by `src/server.ts`).

Strings are modelled as `List Char` (`Str`).  Every OS interaction
(`lpstat`, `cupsenable`, `cupsaccept`, `lp`, file system calls) is modelled
by an explicit environment record whose fields give the outcome of each
external command, so the TypeScript control flow becomes pure state passing.
-/

set_option maxHeartbeats 1000000

abbrev Str := List Char

/-- Charwise lowercasing, the model of JavaScript `String.toLowerCase` for the
ASCII texts handled here. -/
def lowerStr (s : Str) : Str := s.map Char.toLower

/-- Model of JavaScript `String.includes`: does `pat` occur as a contiguous
substring of `s`?  Implemented as a left-to-right scan. -/
def strHas (pat : Str) : Str → Bool
  | [] => pat.isEmpty
  | c :: rest => pat.isPrefixOf (c :: rest) || strHas pat rest

/-- Declarative substring occurrence. -/
def HasSub (s pat : Str) : Prop := ∃ a b, s = a ++ pat ++ b

/-- Declarative case-insensitive containment: some contiguous slice of `s`
lowercases to `pat`. -/
def HasSubCI (s pat : Str) : Prop := ∃ a b c, s = a ++ b ++ c ∧ lowerStr b = pat

/-- JavaScript `split("\n")`. -/
def splitNl : Str → List Str
  | [] => [[]]
  | c :: rest =>
    if c = '\n' then [] :: splitNl rest
    else
      match splitNl rest with
      | [] => [[c]]
      | l :: ls => (c :: l) :: ls

/-! ### The `lpstat` output parsers of `getAllPrinters`

`getAllPrinters` applies three JavaScript regexes:
`/printer (.+?) (.*)/` to each line of `lpstat -p -d`,
`/system default destination: (.+)/` to the whole `lpstat -p -d` output, and
`/device for (.+?): (.+)/` to the matching line of `lpstat -v`.
Each is embedded as a leftmost-match scanner with the lazy/greedy
behaviour of the JavaScript engine. -/

/-- Split `s` at the first `' '`; the consumed part must be newline-free.
Models the lazy `(.+?) ` tail (after its mandatory first character). -/
def upToSpace : Str → Option (Str × Str)
  | [] => none
  | c :: rest =>
    if c = ' ' then some ([], rest)
    else if c = '\n' then none
    else (upToSpace rest).map (fun p => (c :: p.1, p.2))

/-- Match `(.+?) (.*)` against `rest`: lazy nonempty newline-free group,
a space, then a greedy newline-free capture. -/
def printerTail (rest : Str) : Option (Str × Str) :=
  match rest with
  | [] => none
  | c :: rs =>
    if c = '\n' then none
    else
      match upToSpace rs with
      | none => none
      | some (a, b) => some (c :: a, b.takeWhile (fun x => x ≠ '\n'))

def printerLit : Str := "printer ".data

/-- Leftmost match of `/printer (.+?) (.*)/` in a string, returning
(capture 1, capture 2). -/
def findPrinterLine : Str → Option (Str × Str)
  | [] => none
  | c :: rest =>
    match (if printerLit.isPrefixOf (c :: rest) then printerTail ((c :: rest).drop printerLit.length) else none) with
    | some r => some r
    | none => findPrinterLine rest

/-- Split `s` at the first `": "` that is followed by at least one
non-newline character; the consumed part must be newline-free.  Lazy group
growth over failed `": "` candidates models regex backtracking. -/
def upToColonSpace : Str → Option (Str × Str)
  | [] => none
  | c :: rest =>
    if c = ':' then
      match rest with
      | ' ' :: d :: rest2 =>
        if d ≠ '\n' then some ([], d :: rest2)
        else (upToColonSpace rest).map (fun p => (c :: p.1, p.2))
      | _ => (upToColonSpace rest).map (fun p => (c :: p.1, p.2))
    else if c = '\n' then none
    else (upToColonSpace rest).map (fun p => (c :: p.1, p.2))

/-- Match `(.+?): (.+)` against `rest`. -/
def deviceTail (rest : Str) : Option (Str × Str) :=
  match rest with
  | [] => none
  | c :: rs =>
    if c = '\n' then none
    else
      match upToColonSpace rs with
      | none => none
      | some (a, b) => some (c :: a, b.takeWhile (fun x => x ≠ '\n'))

def deviceLit : Str := "device for ".data

/-- Leftmost match of `/device for (.+?): (.+)/`. -/
def findDeviceMatch : Str → Option (Str × Str)
  | [] => none
  | c :: rest =>
    match (if deviceLit.isPrefixOf (c :: rest) then deviceTail ((c :: rest).drop deviceLit.length) else none) with
    | some r => some r
    | none => findDeviceMatch rest

def defaultLit : Str := "system default destination: ".data

/-- Leftmost match of `/system default destination: (.+)/`. -/
def findDefault : Str → Option Str
  | [] => none
  | c :: rest =>
    match (if defaultLit.isPrefixOf (c :: rest) then
            (let cap := ((c :: rest).drop defaultLit.length).takeWhile (fun x => x ≠ '\n')
             if cap = [] then none else some cap)
          else none) with
    | some r => some r
    | none => findDefault rest

/-- One OS-registered print destination, as produced by `getAllPrinters`. -/
structure Printer where
  name : Str
  uri : Str
  status : Str
  isDefault : Bool
  isUSB : Bool
  isBluetooth : Bool
  description : Str
  deriving Repr, DecidableEq

/-- The per-line body of the `getAllPrinters` parsing loop. -/
def mkPrinter (deviceLines : List Str) (defaultPrinter : Str) (line : Str) : Option Printer :=
  match findPrinterLine line with
  | none => none
  | some (nm, st) =>
    let status := if st = [] then "unknown".data else st
    let (uri, u, b) :=
      match deviceLines.find? (fun d => strHas nm d) with
      | none => (([] : Str), false, false)
      | some d =>
        match findDeviceMatch d with
        | none => (([] : Str), false, false)
        | some (_, uriv) =>
          (uriv, strHas "usb".data (lowerStr uriv),
           strHas "bluetooth".data (lowerStr uriv) || strHas "bth".data (lowerStr uriv))
    some { name := nm, uri := uri, status := status,
           isDefault := nm == defaultPrinter, isUSB := u, isBluetooth := b,
           description := status }

/-- Pure core of `getAllPrinters`: parse the outputs of `lpstat -p -d`
and `lpstat -v` into the printer list. -/
def getAllPrintersPure (pd v : Str) : List Printer :=
  (splitNl pd).filterMap (mkPrinter (splitNl v) ((findDefault pd).getD []))

/-! ### Printer status and enable commands -/

/-- The status-text test of `isPrinterEnabled`: the printer counts as disabled
when the `lpstat -p <name>` output contains `"disabled"` or `"paused"`
case-insensitively; it is enabled otherwise. -/
def isEnabledText (out : Str) : Bool :=
  !(strHas "disabled".data (lowerStr out) || strHas "paused".data (lowerStr out))

/-- Embedding of `isPrinterEnabled`, over an abstract single-printer status query `q`
(the outcome of `execAsync` on `lpstat -p "<name>"`).  A failing query is
wrapped into the discovery-style error, any successful output is classified
by `isEnabledText`. -/
def isPrinterEnabledQ (q : Str → Except Str Str) (name : Str) : Except Str Bool :=
  match q name with
  | .error e => .error ("Failed to check printer status: ".data ++ e)
  | .ok out => .ok (isEnabledText out)

/-- Environment of OS command outcomes consumed by the print subsystem.
Each field is the result the corresponding external command would produce. -/
structure OsEnv where
  lpstatPD : Except Str Str
  lpstatV : Except Str Str
  lpstatP : Str → Except Str Str
  cupsenable : Str → Except Str Unit
  cupsaccept : Str → Except Str Unit
  submit : Str → Except Str Str
  tmpName : Str
  unlinkOk : Bool

def isPrinterEnabledM (env : OsEnv) (name : Str) : Except Str Bool :=
  isPrinterEnabledQ env.lpstatP name

/-- Embedding of `getAllPrinters`: run `lpstat -p -d` and `lpstat -v`, parse; a failure of
either command is wrapped into the discovery error. -/
def getAllPrintersM (env : OsEnv) : Except Str (List Printer) :=
  match env.lpstatPD with
  | .error e => .error ("Failed to get printers: ".data ++ e)
  | .ok pd =>
    match env.lpstatV with
    | .error e => .error ("Failed to get printers: ".data ++ e)
    | .ok v => .ok (getAllPrintersPure pd v)

/-- Embedding of `enablePrinter`: `cupsenable` then `cupsaccept`; a failure of either is
wrapped into the enable error. -/
def enablePrinterM (env : OsEnv) (name : Str) : Except Str Str :=
  match env.cupsenable name with
  | .error e => .error ("Failed to enable printer: ".data ++ e)
  | .ok _ =>
    match env.cupsaccept name with
    | .error e => .error ("Failed to enable printer: ".data ++ e)
    | .ok _ =>
      .ok ("Printer \"".data ++ name ++ "\" has been enabled and is now accepting jobs".data)

/-! ### Job submitter: validation, command construction, job-id parsing -/

/-- Node `path.extname`, specialised to the paths handled here: the extension
(with its dot) of the segment after the last `/`; empty for dotless names and
for a leading-dot-only name. -/
def extname (p : Str) : Str :=
  let base := (p.reverse.takeWhile (fun c => c ≠ '/')).reverse
  let afterDot := base.reverse.takeWhile (fun c => c ≠ '.')
  if afterDot.length + 1 = base.length then []
  else if afterDot.length = base.length then []
  else '.' :: afterDot.reverse

def supportedFormats : List Str :=
  [".png".data, ".jpg".data, ".jpeg".data, ".gif".data, ".pdf".data, ".tiff".data, ".tif".data]

def joinComma : List Str → Str
  | [] => []
  | [a] => a
  | a :: b :: rest => a ++ ", ".data ++ joinComma (b :: rest)

/-- Embedding of `validateImageFile` over a file-system modelled as the list of existing
readable paths: a missing file is `File not found`, a wrong extension is
`Unsupported file format`. -/
def validateImageFile (fs : List Str) (p : Str) : Except Str Unit :=
  if fs.contains p then
    let ext := lowerStr (extname p)
    if supportedFormats.contains ext then .ok ()
    else .error ("Unsupported file format: ".data ++ ext ++ ". Supported formats: ".data
                 ++ joinComma supportedFormats)
  else .error ("File not found: ".data ++ p)

structure PrintOptions where
  copies : Option Nat := none
  media : Option Str := none
  grayscale : Bool := false
  fitToPage : Bool := false
  cupOptions : List (Str × Str) := []

def natToStr (n : Nat) : Str := (toString n).data

def quoteArg (s : Str) : Str := '"' :: (s ++ ['"'])

def joinSpace : List Str → Str
  | [] => []
  | [a] => a
  | a :: b :: rest => a ++ ' ' :: joinSpace (b :: rest)

/-- Embedding of `buildPrintCommand`: the deterministic `lp` flag-building procedure. -/
def buildPrintCommand (printerName imagePath : Str) (o : PrintOptions) : Str :=
  let args : List Str :=
    ["lp".data]
    ++ ["-d".data, quoteArg printerName]
    ++ (match o.copies with
        | some n => if n > 1 then ["-n".data, natToStr n] else []
        | none => [])
    ++ (match o.media with
        | some m => ["-o".data, "media=".data ++ m]
        | none => [])
    ++ (if o.grayscale then ["-o".data, "ColorModel=Gray".data] else [])
    ++ (if o.fitToPage then ["-o".data, "fit-to-page".data] else [])
    ++ (o.cupOptions.foldr (fun kv acc => "-o".data :: (kv.1 ++ '=' :: kv.2) :: acc) [])
    ++ [quoteArg imagePath]
  joinSpace args

/-! ### The job-id regex `/request id is .+-(\d+)/`

Embedded as a leftmost-match scanner with greedy `.+` (the last
`-<digit>` before the newline wins) and greedy `\d+`. -/

/-- Match `-(\d+)` at the start of `s` with a greedy digit capture. -/
def hyphenDigits : Str → Option Str
  | c0 :: c :: rest =>
    if c0 = '-' then
      if c.isDigit then some (c :: rest.takeWhile Char.isDigit) else none
    else none
  | _ => none

/-- Match `.*-(\d+)` against a prefix of `s`, greedy in `.*`
(`.` does not match a newline). -/
def starThen : Str → Option Str
  | [] => none
  | c :: rest =>
    if c = '\n' then none
    else
      match starThen rest with
      | some d => some d
      | none => hyphenDigits (c :: rest)

/-- Match `.+-(\d+)` against a prefix of `s`. -/
def dotPlusThen : Str → Option Str
  | [] => none
  | c :: rest => if c = '\n' then none else starThen rest

def reqLit : Str := "request id is ".data

/-- Try the whole pattern anchored at the start of `s`. -/
def matchAt (s : Str) : Option Str :=
  if reqLit.isPrefixOf s then dotPlusThen (s.drop reqLit.length) else none

/-- Leftmost match of `/request id is .+-(\d+)/`, returning capture 1. -/
def searchMatch : Str → Option Str
  | [] => none
  | c :: rest =>
    match matchAt (c :: rest) with
    | some d => some d
    | none => searchMatch rest

/-- The whitespace set of JavaScript `String.trim` (ASCII part plus NBSP). -/
def isJsSpace (c : Char) : Bool :=
  c = ' ' || c = '\t' || c = '\n' || c = '\r' || c = '\x0b' || c = '\x0c' || c = ' '

/-- JavaScript `String.trim`. -/
def jsTrim (s : Str) : Str :=
  ((s.dropWhile isJsSpace).reverse.dropWhile isJsSpace).reverse

/-- Job-id extraction from the `lp` output: the captured digits when the
pattern matches, the raw trimmed output otherwise. -/
def extractJobId (stdout : Str) : Str :=
  match searchMatch stdout with
  | some d => d
  | none => jsTrim stdout

/-- Declarative occurrence of the job-id pattern in a string. -/
def OccursPat (s : Str) : Prop :=
  ∃ pre mid d suf, s = pre ++ reqLit ++ mid ++ '-' :: (d ++ suf) ∧
    mid ≠ [] ∧ (∀ x ∈ mid, x ≠ '\n') ∧ d ≠ [] ∧ d.all Char.isDigit

/-! ### `printImage` -/

/-- An image source: a file path or an in-memory byte buffer. -/
inductive ImgSrc where
  | path (p : Str)
  | buffer (b : List Nat)

/-- Observable file-system and spooler state threaded through a submission:
existing files, the temp files created so far, and the submit commands
handed to the spooler. -/
structure PrintSt where
  fs : List Str
  created : List Str
  submits : List Str
  deriving Repr, DecidableEq

/-- Body of the `try` block of `printImage` (before error wrapping and the
`finally` cleanup).  Returns the raw result, the state after the body, and
the temp file path if one was created. -/
def printImageCore (env : OsEnv) (st : PrintSt) (printerName : Str) (src : ImgSrc)
    (o : PrintOptions) : Except Str Str × PrintSt × Option Str :=
  let stepA : Except Str (PrintSt × Option Str × Str) :=
    match src with
    | .buffer _ =>
      let t := env.tmpName
      .ok ({ st with fs := t :: st.fs, created := st.created ++ [t] }, some t, t)
    | .path p =>
      match validateImageFile st.fs p with
      | .error e => .error e
      | .ok _ => .ok (st, none, p)
  match stepA with
  | .error e => (.error e, st, none)
  | .ok (st1, tempOpt, imagePath) =>
    match getAllPrintersM env with
    | .error e => (.error e, st1, tempOpt)
    | .ok printers =>
      match printers.find? (fun p => p.name == printerName) with
      | none => (.error ("Printer not found: ".data ++ printerName), st1, tempOpt)
      | some _ =>
        let cmd := buildPrintCommand printerName imagePath o
        let st2 := { st1 with submits := st1.submits ++ [cmd] }
        match env.submit cmd with
        | .error e => (.error e, st2, tempOpt)
        | .ok out => (.ok (extractJobId out), st2, tempOpt)

/-- Embedding of `printImage`: the core body, then the `finally` cleanup of the temp file
(deletion failure swallowed) and the `catch` error wrapping. -/
def printImage (env : OsEnv) (st : PrintSt) (printerName : Str) (src : ImgSrc)
    (o : PrintOptions) : Except Str Str × PrintSt :=
  let (r, st1, tempOpt) := printImageCore env st printerName src o
  let st2 :=
    match tempOpt with
    | some t => if env.unlinkOk then { st1 with fs := st1.fs.erase t } else st1
    | none => st1
  let r2 :=
    match r with
    | .ok j => .ok j
    | .error m => .error ("Failed to print: ".data ++ m)
  (r2, st2)

/-- Embedding of `printToUSB`: first USB printer (preferring the default), then submit. -/
def printToUSB_M (env : OsEnv) (st : PrintSt) (src : ImgSrc) (o : PrintOptions) :
    Except Str (Str × Str) × PrintSt :=
  match getAllPrintersM env with
  | .error e => (.error e, st)
  | .ok all =>
    match all.filter (fun p => p.isUSB) with
    | [] => (.error "No USB printers found".data, st)
    | u :: us =>
      let printer :=
        match (u :: us).find? (fun p => p.isDefault) with
        | some p => p
        | none => u
      let (r, st') := printImage env st printer.name src o
      match r with
      | .error e => (.error e, st')
      | .ok j => (.ok (printer.name, j), st')

/-! ### The `/api/generate` orchestrator -/

inductive GenResponse where
  | badRequest
  | genFailed
  | serverError (msg : Str)
  | image (buf : List Nat)
  deriving Repr, DecidableEq

/-- The print block of the orchestrator: discover, submit to the configured
printer when present, else fall back to `printToUSB`; every error is caught
and swallowed (only the state effects remain). -/
def printBlock (env : OsEnv) (st : PrintSt) (buf : List Nat) (printerName : Str) : PrintSt :=
  match getAllPrintersM env with
  | .error _ => st
  | .ok printers =>
    match printers.find? (fun p => p.name == printerName) with
    | some _ =>
      (printImage env st printerName (.buffer buf)
        { fitToPage := true, copies := some 1 }).2
    | none =>
      (printToUSB_M env st (.buffer buf)
        { fitToPage := true, copies := some 1 }).2

/-- The `/api/generate` handler: validate the prompt, generate the image,
run the print block with all its errors swallowed, and return the image. -/
def handleGenerate (env : OsEnv) (st : PrintSt) (genResult : Except Str (Option (List Nat)))
    (prompt : Option Str) (printerName : Str) : GenResponse × PrintSt :=
  match prompt with
  | none => (.badRequest, st)
  | some p =>
    if p = [] then (.badRequest, st)
    else
      match genResult with
      | .error e => (.serverError e, st)
      | .ok none => (.genFailed, st)
      | .ok (some buf) => (.image buf, printBlock env st buf printerName)

/-! ### The printer health monitor `watchAndResumePrinters` -/

/-- One candidate of a monitoring pass: status check, then resume when
disabled.  Returns the name passed to `onResume`, if any. -/
def stepPrinter (env : OsEnv) (p : Printer) : Except Str (Option Str) :=
  match isPrinterEnabledM env p.name with
  | .error e => .error e
  | .ok true => .ok none
  | .ok false =>
    match enablePrinterM env p.name with
    | .error e => .error e
    | .ok _ => .ok (some p.name)

/-- The candidate loop of a pass.  Returns the terminal outcome, the
`onResume` notifications fired, and the candidates whose status was
actually checked, in order. -/
def processList (env : OsEnv) : List Printer → Except Str Unit × List Str × List Str
  | [] => (.ok (), [], [])
  | p :: ps =>
    match stepPrinter env p with
    | .error e => (.error e, [], [p.name])
    | .ok r =>
      let (res, resumed, checked) := processList env ps
      (res, (match r with | some n => [n] | none => []) ++ resumed, p.name :: checked)

/-- Candidate resolution of a pass: the allow-list when given and nonempty,
else every USB or Bluetooth printer. -/
def candidatePrinters (printers : List Printer) (names : Option (List Str)) : List Printer :=
  match names with
  | some ns =>
    if ns.length > 0 then printers.filter (fun p => ns.contains p.name)
    else printers.filter (fun p => p.isUSB || p.isBluetooth)
  | none => printers.filter (fun p => p.isUSB || p.isBluetooth)

/-- The terminal outcome of the pass body (the exception that escapes the
`try` block, if any). -/
def bodyOutcome (env : OsEnv) (names : Option (List Str)) : Except Str Unit :=
  match getAllPrintersM env with
  | .error e => .error e
  | .ok printers => (processList env (candidatePrinters printers names)).1

structure PassResult where
  resumed : List Str
  checked : List Str
  reported : List Str
  deriving Repr, DecidableEq

/-- One full monitoring pass: body plus the pass-boundary `catch` that
routes the escaped exception to `onError`. -/
def runPass (env : OsEnv) (names : Option (List Str)) : PassResult :=
  match getAllPrintersM env with
  | .error e => { resumed := [], checked := [], reported := [e] }
  | .ok printers =>
    let (res, resumed, checked) := processList env (candidatePrinters printers names)
    match res with
    | .ok _ => { resumed := resumed, checked := checked, reported := [] }
    | .error e => { resumed := resumed, checked := checked, reported := [e] }

/-- Watcher state: the closure-captured `isRunning` flag. -/
structure WatcherSt where
  running : Bool
  deriving Repr, DecidableEq

/-- The stop handle returned by `watchAndResumePrinters`. -/
def stopWatcher (_ : WatcherSt) : WatcherSt := { running := false }

/-- Observable outcome of one `check` invocation. -/
structure FireResult where
  st : WatcherSt
  pass : Option PassResult
  scheduled : Bool
  deriving Repr, DecidableEq

/-- One `check` invocation: return immediately when not running; otherwise
run the pass (with `stopDuring` recording a stop-handle call during the
in-flight pass) and schedule the next check only if still running. -/
def fireCheck (s : WatcherSt) (env : OsEnv) (names : Option (List Str))
    (stopDuring : Bool) : FireResult :=
  if s.running then
    let s' : WatcherSt := if stopDuring then { running := false } else s
    { st := s', pass := some (runPass env names), scheduled := s'.running }
  else
    { st := s, pass := none, scheduled := false }

/-- Embedding of the `watchAndResumePrinters` entry: the watcher starts running and fires its
first check immediately. -/
def startWatcher (env : OsEnv) (names : Option (List Str)) (stopDuring : Bool) : FireResult :=
  fireCheck { running := true } env names stopDuring

/-- A sequence of later `check` firings against a watcher state, collecting
every pass that actually runs. -/
def runEvents (names : Option (List Str)) (s : WatcherSt) :
    List (OsEnv × Bool) → WatcherSt × List PassResult
  | [] => (s, [])
  | (env, sd) :: evs =>
    let r := fireCheck s env names sd
    let (s', ps) := runEvents names r.st evs
    (s', (match r.pass with | some p => [p] | none => []) ++ ps)

/-! ### OS registry model for the missing-printer policy -/

/-- Modelled from the spec: the OS printer registry behind the single-printer
status query (`lpstat -p "<name>"`), which is not part of this repository.
Per spec §4.1/§6 the query of a registered printer reports that printer's
status line and the query of a missing printer yields no status text;
`canExec` is false when the status-query command itself cannot be executed. -/
structure OSRegistry where
  printers : List (Str × Str)
  canExec : Bool

/-- Modelled from the spec: outcome of the single-printer status query
against the registry. -/
def queryStatus (os : OSRegistry) (name : Str) : Except Str Str :=
  if os.canExec then
    match os.printers.find? (fun pr => pr.1 == name) with
    | some pr => .ok ("printer ".data ++ name ++ ' ' :: pr.2)
    | none => .ok []
  else .error "spawn failed".data

/-! ### Auxiliary definitions for concrete evaluations -/

/-- Replace only the `unlinkOk` field of an environment (used to compare the
caller-visible result under a successful and a failing temp-file deletion). -/
def setUnlink (env : OsEnv) (u : Bool) : OsEnv := { env with unlinkOk := u }

/-- A sample environment in which every OS command succeeds and discovery
reports one USB printer `P1`. -/
def okEnv : OsEnv where
  lpstatPD := .ok "printer P1 idle\nsystem default destination: P1".data
  lpstatV := .ok "device for P1: usb://X/Y".data
  lpstatP := fun _ => .ok "printer P1 idle".data
  cupsenable := fun _ => .ok ()
  cupsaccept := fun _ => .ok ()
  submit := fun _ => .ok "request id is P1-7 (1 file(s))".data
  tmpName := "/tmp/print-temp-1-aa.png".data
  unlinkOk := true

/-- A sample environment in which every OS command fails. -/
def errEnv : OsEnv where
  lpstatPD := .error "boom".data
  lpstatV := .error "boom".data
  lpstatP := fun _ => .error "boom".data
  cupsenable := fun _ => .error "boom".data
  cupsaccept := fun _ => .error "boom".data
  submit := fun _ => .error "boom".data
  tmpName := "/tmp/print-temp-1-aa.png".data
  unlinkOk := false

/-- A sample environment in which discovery reports printers `P1` and `P2`,
`P1` answers its status query and `P2`'s status query fails. -/
def midEnv : OsEnv where
  lpstatPD := .ok "printer P1 idle\nprinter P2 idle".data
  lpstatV := .ok []
  lpstatP := fun n => if n == "P1".data then .ok "printer P1 idle".data else .error "boom".data
  cupsenable := fun _ => .ok ()
  cupsaccept := fun _ => .ok ()
  submit := fun _ => .ok []
  tmpName := "/tmp/print-temp-1-aa.png".data
  unlinkOk := true

/-- The printer record that `getAllPrintersPure` produces for `P1` in
`midEnv`'s discovery output. -/
def midP1 : Printer :=
  { name := "P1".data, uri := [], status := "idle".data,
    isDefault := false, isUSB := false, isBluetooth := false,
    description := "idle".data }

/-- The printer record that `getAllPrintersPure` produces for `P2` in
`midEnv`'s discovery output. -/
def midP2 : Printer :=
  { name := "P2".data, uri := [], status := "idle".data,
    isDefault := false, isUSB := false, isBluetooth := false,
    description := "idle".data }

/-- Sample `lpstat -p -d` output for the default-USB-printer scenario. -/
def canonPD : Str := "printer Canon_XK130 idle\nsystem default destination: Canon_XK130".data

/-- Sample `lpstat -v` output for the default-USB-printer scenario. -/
def canonV : Str := "device for Canon_XK130: usb://Canon/XK130".data

/-- The printer record parsed from `canonPD`/`canonV`. -/
def canonPrinter : Printer :=
  { name := "Canon_XK130".data, uri := "usb://Canon/XK130".data, status := "idle".data,
    isDefault := true, isUSB := true, isBluetooth := false,
    description := "idle".data }

/-- The printer record parsed from `okEnv`'s discovery output. -/
def okP1 : Printer :=
  { name := "P1".data, uri := "usb://X/Y".data, status := "idle".data,
    isDefault := true, isUSB := true, isBluetooth := false,
    description := "idle".data }

/-! ## Theorems -/
theorem strHas_iff {pat s : Str} : strHas pat s = true ↔ HasSub s pat := by
  induction s with
  | nil =>
    simp only [strHas, List.isEmpty_iff, HasSub]
    constructor
    · rintro rfl; exact ⟨[], [], rfl⟩
    · rintro ⟨a, b, h⟩
      rcases List.append_eq_nil.mp h.symm with ⟨h1, h2⟩
      exact (List.append_eq_nil.mp h1).2
  | cons c rest ih =>
    simp only [strHas, Bool.or_eq_true, List.isPrefixOf_iff_prefix, ih, HasSub]
    constructor
    · rintro (⟨t, ht⟩ | ⟨a, b, rfl⟩)
      · exact ⟨[], t, by simpa using ht.symm⟩
      · exact ⟨c :: a, b, rfl⟩
    · rintro ⟨a, b, h⟩
      cases a with
      | nil => exact Or.inl ⟨b, by simpa using h.symm⟩
      | cons x a' =>
        rw [List.cons_append, List.cons_append] at h
        injection h with h1 h2
        exact Or.inr ⟨a', b, h2⟩

theorem lowerStr_append (a b : Str) : lowerStr (a ++ b) = lowerStr a ++ lowerStr b := by
  simp [lowerStr]

/-- Case-insensitive containment transfers between the executable check on the
lowercased string and the declarative slice decomposition. -/
theorem strHas_lower_iff {pat s : Str} :
    strHas pat (lowerStr s) = true ↔ HasSubCI s pat := by
  rw [strHas_iff]
  constructor
  · rintro ⟨a, b, h⟩
    rw [List.append_assoc] at h
    simp only [lowerStr] at h
    obtain ⟨a', rest, rfl, ha, hrest⟩ := List.map_eq_append_iff.mp h
    obtain ⟨b', c', rfl, hb, hc⟩ := List.map_eq_append_iff.mp hrest
    exact ⟨a', b', c', by simp, hb⟩
  · rintro ⟨a, b, c, rfl, hb⟩
    exact ⟨lowerStr a, lowerStr c, by simp [lowerStr_append, hb]⟩


theorem HasSubCI_nil_elim {pat : Str} (h : HasSubCI [] pat) : pat = [] := by
  obtain ⟨a, b, c, habc, hb⟩ := h
  rcases List.append_eq_nil.mp habc.symm with ⟨h1, h2⟩
  rcases List.append_eq_nil.mp h1 with ⟨h3, h4⟩
  simp [← hb, h4, lowerStr]

/-- Claim C8: the status text of the single-printer query makes
`isPrinterEnabled` answer `false` exactly when the text contains
"disabled" or "paused" case-insensitively, and `true` for every other
text, the empty text included. -/
theorem C8_status_text_classification (q : Str → Except Str Str) (name out : Str)
    (h : q name = .ok out) :
    isPrinterEnabledQ q name = .ok (isEnabledText out) ∧
    (isEnabledText out = false ↔
      (HasSubCI out "disabled".data ∨ HasSubCI out "paused".data)) ∧
    isEnabledText [] = true := by
  refine ⟨by simp [isPrinterEnabledQ, h], ?_, by decide⟩
  simp only [isEnabledText, Bool.not_eq_false', Bool.or_eq_true, strHas_lower_iff]

theorem C8_status_text_classification_w :
    isPrinterEnabledQ (fun _ => Except.ok "Printer is Paused".data) "P1".data =
      .ok (isEnabledText "Printer is Paused".data) ∧
    (isEnabledText "Printer is Paused".data = false ↔
      (HasSubCI "Printer is Paused".data "disabled".data ∨
       HasSubCI "Printer is Paused".data "paused".data)) ∧
    isEnabledText [] = true :=
  C8_status_text_classification _ "P1".data "Printer is Paused".data rfl

/-- Claim C1: a printer name absent from the OS printer registry yields
`true` from `isPrinterEnabled` (a missing printer is not treated as
blocked), and the check fails only when the status-query command itself
cannot be executed. -/
theorem C1_missing_printer_enabled (os : OSRegistry) (name : Str)
    (h : ∀ pr ∈ os.printers, pr.1 ≠ name) :
    (os.canExec = true → isPrinterEnabledQ (queryStatus os) name = .ok true) ∧
    (∀ other : Str,
      (∃ e, isPrinterEnabledQ (queryStatus os) other = .error e) ↔ os.canExec = false) := by
  constructor
  · intro hc
    have hf : os.printers.find? (fun pr => pr.1 == name) = none :=
      List.find?_eq_none.mpr (fun pr hpr => by simp [h pr hpr])
    have he : isEnabledText [] = true := by decide
    simp [isPrinterEnabledQ, queryStatus, hc, hf, he]
  · intro other
    constructor
    · rintro ⟨e, he⟩
      by_contra hc
      rw [Bool.not_eq_false] at hc
      unfold isPrinterEnabledQ queryStatus at he
      rw [if_pos hc] at he
      cases hfind : os.printers.find? (fun pr => pr.1 == other) <;>
        rw [hfind] at he <;> simp at he
    · intro hc
      exact ⟨"Failed to check printer status: ".data ++ "spawn failed".data,
        by simp [isPrinterEnabledQ, queryStatus, hc]⟩

theorem C1_missing_printer_enabled_w :
    isPrinterEnabledQ (queryStatus ⟨[("P1".data, "idle".data)], true⟩) "Ghost".data =
      .ok true ∧
    ¬ (∃ e, isPrinterEnabledQ (queryStatus ⟨[("P1".data, "idle".data)], true⟩)
        "Ghost".data = .error e) := by
  have h := C1_missing_printer_enabled ⟨[("P1".data, "idle".data)], true⟩ "Ghost".data
    (by decide)
  exact ⟨h.1 rfl, fun he => absurd ((h.2 "Ghost".data).mp he) (by decide)⟩

/-- Claim C4: when image generation succeeds, the orchestrator returns the
generated image whatever the printer-choosing and submission steps do;
their exceptions are swallowed and never change the response. -/
theorem C4_image_always_returned (env : OsEnv) (st : PrintSt) (buf : List Nat)
    (p : Str) (printerName : Str) (hp : p ≠ []) :
    (handleGenerate env st (.ok (some buf)) (some p) printerName).1 = .image buf := by
  simp [handleGenerate, hp]

theorem C4_image_always_returned_w :
    (handleGenerate errEnv ⟨[], [], []⟩ (.ok (some [7])) (some "cat".data) "P1".data).1 =
      .image [7] :=
  C4_image_always_returned errEnv ⟨[], [], []⟩ [7] "cat".data "P1".data (by decide)

/-- Claim C5: with the watcher running, a `check` invocation always runs the
pass as a total function, routes the exception that escapes the pass body to
`onError` (and reports nothing when the body succeeds), and schedules the
next pass whenever the watcher was not stopped meanwhile. -/
theorem C5_pass_failure_contained (env : OsEnv) (names : Option (List Str))
    (s : WatcherSt) (sd : Bool) (h : s.running = true) :
    (fireCheck s env names sd).pass = some (runPass env names) ∧
    (∀ e, bodyOutcome env names = .error e → (runPass env names).reported = [e]) ∧
    (bodyOutcome env names = .ok () → (runPass env names).reported = []) ∧
    (sd = false → (fireCheck s env names sd).scheduled = true) := by
  refine ⟨by simp [fireCheck, h], ?_, ?_, fun hsd => by simp [fireCheck, h, hsd]⟩
  · intro e hee
    unfold bodyOutcome at hee
    unfold runPass
    cases hG : getAllPrintersM env with
    | error e2 =>
      simp only [hG] at hee ⊢
      simp at hee
      simp [hee]
    | ok prs =>
      simp only [hG] at hee ⊢
      rcases hP : processList env (candidatePrinters prs names) with ⟨res, resumed, checked⟩
      simp only [hP] at hee ⊢
      cases res with
      | ok u => simp at hee
      | error e3 => simp at hee; simp [hee]
  · intro he
    unfold bodyOutcome at he
    unfold runPass
    cases hG : getAllPrintersM env with
    | error e2 => simp only [hG] at he; simp at he
    | ok prs =>
      simp only [hG] at he ⊢
      rcases hP : processList env (candidatePrinters prs names) with ⟨res, resumed, checked⟩
      simp only [hP] at he ⊢
      cases res with
      | ok u => simp
      | error e3 => simp at he

theorem C5_pass_failure_contained_w :
    (fireCheck ⟨true⟩ errEnv none false).pass = some (runPass errEnv none) ∧
    (runPass errEnv none).reported = ["Failed to get printers: boom".data] ∧
    (fireCheck ⟨true⟩ errEnv none false).scheduled = true := by
  have h := C5_pass_failure_contained errEnv none ⟨true⟩ false rfl
  exact ⟨h.1, h.2.1 "Failed to get printers: boom".data rfl, h.2.2.2 rfl⟩

/-- Claim C6: the watcher runs one pass immediately on start, and once
stopped it is terminal — a later `check` firing neither runs a pass nor
schedules another, over any sequence of events. -/
theorem C6_immediate_start_stop_terminal (env : OsEnv) (names : Option (List Str))
    (sd : Bool) (evs : List (OsEnv × Bool)) :
    (startWatcher env names sd).pass = some (runPass env names) ∧
    (∀ s : WatcherSt, ∀ env2 names2 sd2, fireCheck (stopWatcher s) env2 names2 sd2 =
      { st := { running := false }, pass := none, scheduled := false }) ∧
    runEvents names { running := false } evs = ({ running := false }, []) := by
  refine ⟨by simp [startWatcher, fireCheck], ?_, ?_⟩
  · intro s env2 names2 sd2
    simp [stopWatcher, fireCheck]
  · induction evs with
    | nil => rfl
    | cons ev evs ih =>
      obtain ⟨env2, sd2⟩ := ev
      simp [runEvents, fireCheck, ih]

theorem processList_abort (env : OsEnv) (l₁ : List Printer) (p : Printer)
    (l₂ : List Printer) (e : Str)
    (h1 : ∀ q ∈ l₁, (stepPrinter env q).isOk = true)
    (h2 : stepPrinter env p = .error e) :
    ∃ res, processList env (l₁ ++ p :: l₂) =
      (.error e, res, l₁.map (fun q => q.name) ++ [p.name]) := by
  induction l₁ with
  | nil => exact ⟨[], by simp [processList, h2]⟩
  | cons q l₁ ih =>
    have hq := h1 q (by simp)
    obtain ⟨res, hres⟩ := ih (fun x hx => h1 x (by simp [hx]))
    cases hr : stepPrinter env q with
    | error e2 => rw [hr] at hq; simp [Except.isOk, Except.toBool] at hq
    | ok r =>
      cases r with
      | none => exact ⟨res, by simp [processList, hr, hres]⟩
      | some n => exact ⟨n :: res, by simp [processList, hr, hres]⟩

/-- Claim C10: when the status check or enable of one candidate throws
inside a pass, the loop aborts there — the earlier candidates were checked,
the later ones are skipped — the exception is caught at the pass boundary
and reported once, and the next pass is still scheduled. -/
theorem C10_remaining_candidates_skipped (env : OsEnv) (names : Option (List Str))
    (pd v : Str) (l₁ : List Printer) (p : Printer) (l₂ : List Printer) (e : Str)
    (hpd : env.lpstatPD = .ok pd) (hv : env.lpstatV = .ok v)
    (hcand : candidatePrinters (getAllPrintersPure pd v) names = l₁ ++ p :: l₂)
    (h1 : ∀ q ∈ l₁, (stepPrinter env q).isOk = true)
    (h2 : stepPrinter env p = .error e) :
    (runPass env names).checked = l₁.map (fun q => q.name) ++ [p.name] ∧
    (runPass env names).reported = [e] ∧
    (∀ s : WatcherSt, ∀ sd, s.running = true → sd = false →
      (fireCheck s env names sd).scheduled = true) := by
  obtain ⟨res, hres⟩ := processList_abort env l₁ p l₂ e h1 h2
  have hG : getAllPrintersM env = .ok (getAllPrintersPure pd v) := by
    simp [getAllPrintersM, hpd, hv]
  refine ⟨?_, ?_, fun s sd hs hsd => by simp [fireCheck, hs, hsd]⟩
  all_goals simp [runPass, hG, hcand, hres]

theorem C10_remaining_candidates_skipped_w :
    (runPass midEnv (some ["P1".data, "P2".data])).checked =
      [midP1].map (fun q => q.name) ++ [midP2.name] ∧
    (runPass midEnv (some ["P1".data, "P2".data])).reported =
      ["Failed to check printer status: boom".data] ∧
    (fireCheck ⟨true⟩ midEnv (some ["P1".data, "P2".data]) false).scheduled = true := by
  have h := C10_remaining_candidates_skipped midEnv (some ["P1".data, "P2".data])
    "printer P1 idle\nprinter P2 idle".data [] [midP1] midP2 []
    "Failed to check printer status: boom".data rfl rfl (by decide)
    (fun q hq => by rw [List.mem_singleton.mp hq]; rfl) rfl
  exact ⟨h.1, h.2.1, h.2.2 ⟨true⟩ false rfl rfl⟩

/-- Claim C2: submitting to a printer name absent from the discovery result
obtained during the call fails with the printer-not-found error and no
spooler submit command is executed. -/
theorem C2_absent_printer_rejected (env : OsEnv) (st : PrintSt) (printerName : Str)
    (src : ImgSrc) (o : PrintOptions) (pd v : Str)
    (hpd : env.lpstatPD = .ok pd) (hv : env.lpstatV = .ok v)
    (habs : ∀ q ∈ getAllPrintersPure pd v, q.name ≠ printerName)
    (hval : match src with
            | .buffer _ => True
            | .path fp => validateImageFile st.fs fp = .ok ()) :
    (printImage env st printerName src o).1 =
      .error ("Failed to print: ".data ++ ("Printer not found: ".data ++ printerName)) ∧
    (printImage env st printerName src o).2.submits = st.submits := by
  have hG : getAllPrintersM env = .ok (getAllPrintersPure pd v) := by
    simp [getAllPrintersM, hpd, hv]
  have hfind : (getAllPrintersPure pd v).find? (fun q => q.name == printerName) = none :=
    List.find?_eq_none.mpr (fun q hq => by simp [habs q hq])
  cases src with
  | buffer b =>
    cases hu : env.unlinkOk <;>
      simp [printImage, printImageCore, hG, hfind, hu]
  | path fp =>
    simp only [] at hval
    cases hu : env.unlinkOk <;>
      simp [printImage, printImageCore, hG, hfind, hval, hu]

theorem C2_absent_printer_rejected_w :
    (printImage okEnv ⟨[], [], []⟩ "Ghost".data (.buffer [1]) {}).1 =
      .error ("Failed to print: ".data ++ ("Printer not found: ".data ++ "Ghost".data)) ∧
    (printImage okEnv ⟨[], [], []⟩ "Ghost".data (.buffer [1]) {}).2.submits = [] := by
  have h := C2_absent_printer_rejected okEnv ⟨[], [], []⟩ "Ghost".data (.buffer [1]) {}
    "printer P1 idle\nsystem default destination: P1".data
    "device for P1: usb://X/Y".data rfl rfl (by decide) trivial
  exact h

theorem printImageCore_buffer_shape (env : OsEnv) (st : PrintSt) (printerName : Str)
    (b : List Nat) (o : PrintOptions) :
    ∃ r subs, printImageCore env st printerName (.buffer b) o =
      (r, { fs := env.tmpName :: st.fs, created := st.created ++ [env.tmpName],
            submits := st.submits ++ subs }, some env.tmpName) := by
  unfold printImageCore
  cases hG : getAllPrintersM env with
  | error e => exact ⟨.error e, [], by simp [hG]⟩
  | ok prs =>
    cases hf : prs.find? (fun p => p.name == printerName) with
    | none =>
      exact ⟨.error ("Printer not found: ".data ++ printerName), [], by simp [hG, hf]⟩
    | some q =>
      cases hs : env.submit (buildPrintCommand printerName env.tmpName o) with
      | error e =>
        exact ⟨.error e, [buildPrintCommand printerName env.tmpName o],
          by simp [hG, hf, hs]⟩
      | ok out =>
        exact ⟨.ok (extractJobId out), [buildPrintCommand printerName env.tmpName o],
          by simp [hG, hf, hs]⟩

theorem printImageCore_setUnlink (env : OsEnv) (u : Bool) (st : PrintSt)
    (printerName : Str) (src : ImgSrc) (o : PrintOptions) :
    printImageCore (setUnlink env u) st printerName src o =
      printImageCore env st printerName src o := by
  cases env
  rfl

/-- Claim C3: a buffer submission creates exactly one fresh temp file, the
file is gone after the call whether the submission succeeded or failed, and
the caller-visible result never depends on whether the deletion worked. -/
theorem C3_temp_file_cleanup (env : OsEnv) (st : PrintSt) (printerName : Str)
    (b : List Nat) (o : PrintOptions) (hfresh : env.tmpName ∉ st.fs) :
    (printImage env st printerName (.buffer b) o).2.created =
      st.created ++ [env.tmpName] ∧
    (env.unlinkOk = true →
      env.tmpName ∉ (printImage env st printerName (.buffer b) o).2.fs) ∧
    (∀ u1 u2 : Bool,
      (printImage (setUnlink env u1) st printerName (.buffer b) o).1 =
      (printImage (setUnlink env u2) st printerName (.buffer b) o).1) := by
  obtain ⟨r, subs, hshape⟩ := printImageCore_buffer_shape env st printerName b o
  refine ⟨?_, ?_, ?_⟩
  · cases hu : env.unlinkOk <;> simp [printImage, hshape, hu]
  · intro hu
    simp [printImage, hshape, hu, List.erase_cons_head]
    exact hfresh
  · intro u1 u2
    simp [printImage, printImageCore_setUnlink]

theorem C3_temp_file_cleanup_w :
    (printImage okEnv ⟨[], [], []⟩ "P1".data (.buffer [1]) {}).2.created =
      [] ++ [okEnv.tmpName] ∧
    okEnv.tmpName ∉ (printImage okEnv ⟨[], [], []⟩ "P1".data (.buffer [1]) {}).2.fs ∧
    (printImage (setUnlink okEnv true) ⟨[], [], []⟩ "P1".data (.buffer [1]) {}).1 =
      (printImage (setUnlink okEnv false) ⟨[], [], []⟩ "P1".data (.buffer [1]) {}).1 := by
  have h := C3_temp_file_cleanup okEnv ⟨[], [], []⟩ "P1".data [1] {} (by decide)
  exact ⟨h.1, h.2.1 rfl, h.2.2 true false⟩

theorem not_HasSubCI_nil {pat : Str} (hp : pat ≠ []) : ¬ HasSubCI [] pat :=
  fun h => hp (HasSubCI_nil_elim h)

/-- Claim C9: every printer record produced by discovery has `isUSB` exactly
when its uri contains "usb" case-insensitively and `isBluetooth` exactly when
its uri contains "bluetooth" or "bth" case-insensitively; both flags are
functions of the uri alone. -/
theorem C9_uri_classification (pd v : Str) (q : Printer)
    (hmem : q ∈ getAllPrintersPure pd v) :
    (q.isUSB = true ↔ HasSubCI q.uri "usb".data) ∧
    (q.isBluetooth = true ↔
      (HasSubCI q.uri "bluetooth".data ∨ HasSubCI q.uri "bth".data)) := by
  obtain ⟨line, hline, hmk⟩ := List.mem_filterMap.mp hmem
  unfold mkPrinter at hmk
  cases hF : findPrinterLine line with
  | none => rw [hF] at hmk; simp at hmk
  | some nmst =>
    obtain ⟨nm, stt⟩ := nmst
    rw [hF] at hmk
    cases hfind : (splitNl v).find? (fun d => strHas nm d) with
    | none =>
      simp only [hfind] at hmk
      simp only [Option.some.injEq] at hmk
      subst hmk
      constructor <;> simp [not_HasSubCI_nil (by decide : ("usb".data : Str) ≠ []),
        not_HasSubCI_nil (by decide : ("bluetooth".data : Str) ≠ []),
        not_HasSubCI_nil (by decide : ("bth".data : Str) ≠ [])]
    | some d =>
      cases hdm : findDeviceMatch d with
      | none =>
        simp only [hfind, hdm] at hmk
        simp only [Option.some.injEq] at hmk
        subst hmk
        constructor <;> simp [not_HasSubCI_nil (by decide : ("usb".data : Str) ≠ []),
          not_HasSubCI_nil (by decide : ("bluetooth".data : Str) ≠ []),
          not_HasSubCI_nil (by decide : ("bth".data : Str) ≠ [])]
      | some du =>
        obtain ⟨dn, uriv⟩ := du
        simp only [hfind, hdm] at hmk
        simp only [Option.some.injEq] at hmk
        subst hmk
        refine ⟨strHas_lower_iff, ?_⟩
        simp only [Bool.or_eq_true]
        exact or_congr strHas_lower_iff strHas_lower_iff

theorem C9_uri_classification_w :
    (canonPrinter.isUSB = true ↔ HasSubCI canonPrinter.uri "usb".data) ∧
    (canonPrinter.isBluetooth = true ↔
      (HasSubCI canonPrinter.uri "bluetooth".data ∨
       HasSubCI canonPrinter.uri "bth".data)) :=
  C9_uri_classification canonPD canonV canonPrinter (by decide)

theorem hyphenDigits_sound {s d : Str} (h : hyphenDigits s = some d) :
    ∃ suf, s = '-' :: (d ++ suf) ∧ d ≠ [] ∧ d.all Char.isDigit = true := by
  cases s with
  | nil => simp [hyphenDigits] at h
  | cons c0 s1 =>
    cases s1 with
    | nil => simp [hyphenDigits] at h
    | cons c rest =>
      by_cases h0 : c0 = '-'
      · by_cases h1 : c.isDigit
        · simp only [hyphenDigits, if_pos h0, if_pos h1, Option.some.injEq] at h
          subst h
          refine ⟨rest.dropWhile Char.isDigit, ?_, by simp, ?_⟩
          · simp [h0, List.takeWhile_append_dropWhile]
          · simp [List.all_takeWhile, h1]
        · simp [hyphenDigits, h0, h1] at h
      · simp [hyphenDigits, h0] at h

theorem hyphenDigits_complete (c : Char) (rest : Str) (hc : c.isDigit = true) :
    (hyphenDigits ('-' :: c :: rest)).isSome = true := by
  simp [hyphenDigits, hc]

theorem starThen_sound {s d : Str} (h : starThen s = some d) :
    ∃ mid suf, s = mid ++ '-' :: (d ++ suf) ∧ (∀ x ∈ mid, x ≠ '\n') ∧
      d ≠ [] ∧ d.all Char.isDigit = true := by
  induction s with
  | nil => simp [starThen] at h
  | cons c rest ih =>
    by_cases hc : c = '\n'
    · simp [starThen, hc] at h
    · simp only [starThen, if_neg hc] at h
      cases hst : starThen rest with
      | some d2 =>
        rw [hst] at h
        simp only [Option.some.injEq] at h
        subst h
        obtain ⟨mid, suf, heq, hmid, hd, hall⟩ := ih hst
        refine ⟨c :: mid, suf, by simp [heq], ?_, hd, hall⟩
        intro x hx
        rcases List.mem_cons.mp hx with rfl | hx2
        · exact hc
        · exact hmid x hx2
      | none =>
        rw [hst] at h
        obtain ⟨suf, heq, hd, hall⟩ := hyphenDigits_sound h
        exact ⟨[], suf, by simpa using heq, by simp, hd, hall⟩

theorem starThen_complete (mid : Str) (c : Char) (rest : Str)
    (hmid : ∀ x ∈ mid, x ≠ '\n') (hc : c.isDigit = true) :
    (starThen (mid ++ '-' :: c :: rest)).isSome = true := by
  induction mid with
  | nil =>
    simp only [List.nil_append]
    cases hst : starThen (c :: rest) with
    | some d =>
      rw [starThen, if_neg (by decide : ¬ ('-' = '\n')), hst]
      simp
    | none =>
      rw [starThen, if_neg (by decide : ¬ ('-' = '\n')), hst]
      simpa using hyphenDigits_complete c rest hc
  | cons x mid ih =>
    have hx : x ≠ '\n' := hmid x (by simp)
    simp only [List.cons_append, starThen, if_neg hx]
    cases hst : starThen (mid ++ '-' :: c :: rest) with
    | some d => simp
    | none =>
      have hi := ih (fun y hy => hmid y (by simp [hy]))
      rw [hst] at hi
      simp at hi

theorem dotPlusThen_sound {s d : Str} (h : dotPlusThen s = some d) :
    ∃ c rest, s = c :: rest ∧ c ≠ '\n' ∧ starThen rest = some d := by
  cases s with
  | nil => simp [dotPlusThen] at h
  | cons c rest =>
    by_cases hc : c = '\n'
    · simp [dotPlusThen, hc] at h
    · exact ⟨c, rest, rfl, hc, by simpa [dotPlusThen, hc] using h⟩

theorem matchAt_sound {s d : Str} (h : matchAt s = some d) :
    ∃ t, s = reqLit ++ t ∧ dotPlusThen t = some d := by
  unfold matchAt at h
  by_cases hp : reqLit.isPrefixOf s
  · rw [if_pos hp] at h
    obtain ⟨t, ht⟩ := List.isPrefixOf_iff_prefix.mp hp
    refine ⟨t, ht.symm, ?_⟩
    rw [← ht, List.drop_left] at h
    exact h
  · rw [if_neg hp] at h
    exact absurd h (by simp)

theorem matchAt_complete (t : Str) : matchAt (reqLit ++ t) = dotPlusThen t := by
  unfold matchAt
  rw [if_pos (List.isPrefixOf_iff_prefix.mpr ⟨t, rfl⟩), List.drop_left]

theorem searchMatch_sound {s d : Str} (h : searchMatch s = some d) :
    ∃ pre suf, s = pre ++ suf ∧ matchAt suf = some d := by
  induction s with
  | nil => simp [searchMatch] at h
  | cons c rest ih =>
    rw [searchMatch] at h
    cases hm : matchAt (c :: rest) with
    | some d2 =>
      rw [hm] at h
      simp only [Option.some.injEq] at h
      subst h
      exact ⟨[], c :: rest, rfl, hm⟩
    | none =>
      rw [hm] at h
      obtain ⟨pre, suf, heq, hma⟩ := ih h
      exact ⟨c :: pre, suf, by simp [heq], hma⟩

theorem searchMatch_complete (pre t : Str) (h : (matchAt t).isSome = true) :
    (searchMatch (pre ++ t)).isSome = true := by
  induction pre with
  | nil =>
    cases t with
    | nil => simp [matchAt, reqLit] at h
    | cons c rest =>
      simp only [List.nil_append, searchMatch]
      cases hm : matchAt (c :: rest) with
      | some d => simp
      | none => rw [hm] at h; simp at h
  | cons c pre ih =>
    simp only [List.cons_append, searchMatch]
    cases hm : matchAt (c :: (pre ++ t)) with
    | some d => simp
    | none => simpa using ih

/-- Claim C7: the job id returned from the spooler output is the digits
captured by the pattern `request id is <printer>-<digits>` whenever that
pattern occurs, the scenario output yields "42", the raw trimmed output is
used verbatim when the pattern is absent (never an error), and `printImage`
returns exactly this extraction of the submit output. -/
theorem C7_job_id_extraction (s : Str) :
    extractJobId "request id is Canon_XK130-42 (1 file(s))".data = "42".data ∧
    (¬ OccursPat s → extractJobId s = jsTrim s) ∧
    (∀ d, searchMatch s = some d →
      extractJobId s = d ∧ d ≠ [] ∧ d.all Char.isDigit = true ∧ OccursPat s) ∧
    (OccursPat s → ∃ d, searchMatch s = some d ∧ extractJobId s = d) ∧
    (∀ env st printerName b o pd v q out,
      env.lpstatPD = .ok pd → env.lpstatV = .ok v →
      (getAllPrintersPure pd v).find? (fun r => r.name == printerName) = some q →
      env.submit (buildPrintCommand printerName env.tmpName o) = .ok out →
      (printImage env st printerName (.buffer b) o).1 = .ok (extractJobId out)) := by
  have key : ∀ d, searchMatch s = some d →
      extractJobId s = d ∧ d ≠ [] ∧ d.all Char.isDigit = true ∧ OccursPat s := by
    intro d hd
    refine ⟨by simp [extractJobId, hd], ?_⟩
    obtain ⟨pre, suf, hs1, hma⟩ := searchMatch_sound hd
    obtain ⟨t, ht, hdp⟩ := matchAt_sound hma
    obtain ⟨c, rest, hts, hc, hst⟩ := dotPlusThen_sound hdp
    obtain ⟨mid, suf2, hrest, hmid, hdne, hdall⟩ := starThen_sound hst
    refine ⟨hdne, hdall, pre, c :: mid, d, suf2, ?_, by simp, ?_, hdne, hdall⟩
    · rw [hs1, ht, hts, hrest]
      simp
    · intro x hx
      rcases List.mem_cons.mp hx with rfl | hx2
      · exact hc
      · exact hmid x hx2
  have comp : OccursPat s → (searchMatch s).isSome = true := by
    rintro ⟨pre, mid, d0, suf, hs1, hmidne, hmid, hd0ne, hd0all⟩
    cases mid with
    | nil => exact absurd rfl hmidne
    | cons m0 mid' =>
      cases d0 with
      | nil => exact absurd rfl hd0ne
      | cons x d0' =>
        have hx : x.isDigit = true := by
          have := List.all_eq_true.mp hd0all x (by simp)
          simpa using this
        have hstar : (starThen (mid' ++ '-' :: x :: (d0' ++ suf))).isSome = true :=
          starThen_complete mid' x (d0' ++ suf)
            (fun y hy => hmid y (by simp [hy])) hx
        have hdot : (dotPlusThen (m0 :: (mid' ++ '-' :: x :: (d0' ++ suf)))).isSome = true := by
          have hm0 : m0 ≠ '\n' := hmid m0 (by simp)
          simpa [dotPlusThen, hm0] using hstar
        have hmat : (matchAt (reqLit ++ (m0 :: (mid' ++ '-' :: x :: (d0' ++ suf))))).isSome
            = true := by
          rw [matchAt_complete]
          exact hdot
        have := searchMatch_complete pre _ hmat
        have hseq : s = pre ++ (reqLit ++ (m0 :: (mid' ++ '-' :: x :: (d0' ++ suf)))) := by
          rw [hs1]; simp
        rw [hseq]
        exact this
  refine ⟨by decide, ?_, key, ?_, ?_⟩
  · intro hno
    cases hsm : searchMatch s with
    | none => simp [extractJobId, hsm]
    | some d => exact absurd (key d hsm).2.2.2 hno
  · intro hocc
    have hs := comp hocc
    cases hsm : searchMatch s with
    | none => rw [hsm] at hs; simp at hs
    | some d => exact ⟨d, rfl, by simp [extractJobId, hsm]⟩
  · intro env st printerName b o pd v q out hpd hv hfind hsub
    have hG : getAllPrintersM env = .ok (getAllPrintersPure pd v) := by
      simp [getAllPrintersM, hpd, hv]
    cases hu : env.unlinkOk <;>
      simp [printImage, printImageCore, hG, hfind, hsub, hu]

theorem C7_job_id_extraction_w :
    extractJobId "request id is Canon_XK130-42 (1 file(s))".data = "42".data ∧
    OccursPat "request id is Canon_XK130-42 (1 file(s))".data ∧
    (printImage okEnv ⟨[], [], []⟩ "P1".data (.buffer [1]) {}).1 =
      .ok (extractJobId "request id is P1-7 (1 file(s))".data) := by
  have h := C7_job_id_extraction "request id is Canon_XK130-42 (1 file(s))".data
  refine ⟨h.1, (h.2.2.1 "42".data (by decide)).2.2.2, ?_⟩
  exact h.2.2.2.2 okEnv ⟨[], [], []⟩ "P1".data [1] {}
    "printer P1 idle\nsystem default destination: P1".data
    "device for P1: usb://X/Y".data okP1
    "request id is P1-7 (1 file(s))".data rfl rfl (by decide) rfl
